import Mathlib

/-!
Shallow embedding of `lib/ansible/cli/playbook.py`: the task-listing core of
`PlaybookCLI.run` (flags `--list-tasks`, `--list-tasks-with-path`,
`--list-tasks-json`, `--list-tags`), the `remove_nulls` helper, the
`CLIEncoder` JSON encoder and the summary classes used by `--list-tasks-json`.

Python strings are Lean `String`, Python lists are Lean `List`, Python sets of
tag strings are represented by the list of elements inserted into them (their
observable content is membership; every emission point in the source either
sorts an enumeration of the set or, in the one unsorted spot, is modelled
explicitly by an enumeration parameter, see `playTagsLine` and `IsEnumOf`).
-/

namespace PlaybookListing

/-- The listing-related CLI flags read from `self.options` by
`PlaybookCLI.run` (`listtasks`, `listtaskswithpath`, `listtasksjson`,
`listtags`, declared at lines 58-65 of `playbook.py`). -/
structure Opts where
  listtasks : Bool
  listtaskswithpath : Bool
  listtasksjson : Bool
  listtags : Bool
deriving DecidableEq

/-- A compiled task as consumed by the listing loop: `task.get_name()` is
modelled by `name` (empty string for a Python falsy name), `task.action`,
the task's own declared tags, and `task.get_path()` modelled by `path`. -/
structure Task where
  name : String
  action : String
  tags : List String
  path : String
deriving DecidableEq

mutual
/-- An entry of a compiled block's `block` list: either a leaf task or a
nested `Block` (the `isinstance(task, Block)` branch at line 171), carrying
the nested block's own declared tags and its entry list. -/
inductive BlockItem : Type where
  | task : Task → BlockItem
  | block : List String → BlockItems → BlockItem
deriving DecidableEq

/-- The ordered entry list `b.block` of a block. -/
inductive BlockItems : Type where
  | nil : BlockItems
  | cons : BlockItem → BlockItems → BlockItems
deriving DecidableEq
end

/-- Concatenation of block entry lists (used to speak about an entry list
with a distinguished member). -/
def BlockItems.append : BlockItems → BlockItems → BlockItems
  | BlockItems.nil, ys => ys
  | BlockItems.cons x xs, ys => BlockItems.cons x (xs.append ys)

/-- A top-level compiled block as produced by `play.compile()` and then
`block.filter_tagged_tasks(...)` (lines 201-202; the filtering itself lives in
`ansible/playbook/block.py`, outside this file's source): its declared tags
and its entry list. -/
structure Block where
  tags : List String
  items : BlockItems

/-- Modelled from the spec: `has_tasks()` on a Block (called at line 203, the
method itself is in `ansible/playbook/block.py`, not in src/); per spec §4.1 it
is the "has remaining tasks" check used to drop a block whose entry list is
empty after filtering. The real method also inspects `rescue`/`always`
sections, which the listing traversal never reads; the model keeps the one
list the traversal consumes. -/
def hasTasks (b : Block) : Bool :=
  match b.items with
  | BlockItems.nil => false
  | BlockItems.cons _ _ => true

/-- Code-point lexicographic comparison of character lists: the order Python
uses when sorting a list of strings (`cur_tags.sort()`). -/
def charListLe : List Char → List Char → Bool
  | [], _ => true
  | _ :: _, [] => false
  | a :: as, b :: bs =>
    if a.toNat < b.toNat then true
    else if b.toNat < a.toNat then false
    else charListLe as bs

/-- Python's lexicographic order on strings, via their character lists. -/
def strLe (a b : String) : Prop :=
  charListLe a.data b.data = true

instance (a b : String) : Decidable (strLe a b) :=
  instDecidableEqBool (charListLe a.data b.data) true

/-- The sorted, deduplicated union of two tag collections: the value of
`cur_tags = list(s1.union(s2)); cur_tags.sort()` (lines 181-182 and 210-211).
Python enumerates the union set in an unspecified order and then sorts; the
result is independent of that order (`insertionSort_eq_of_isEnumOf` below), so
the embedding uses the canonical enumeration `(xs ++ ys).dedup`. -/
def sortedUnion (xs ys : List String) : List String :=
  List.insertionSort strLe ((xs ++ ys).dedup)

/-- Modelled from the spec: the `tags` attribute of a compiled task, as read
at lines 179 and 181. Attribute inheritance is implemented in
`ansible/playbook` (outside src/): per spec §3 and the glossary, a task's tag
attribute yields the tags inherited from its block ancestry together with its
own declared tags. `anc` is the concatenated declared-tag lists of the
ancestor blocks on the task's path. -/
def attrTags (anc : List String) (t : Task) : List String :=
  anc ++ t.tags

/-- A task summary for the JSON listing, shaped as spec §6 prescribes:
`{name, tags, path?}`. -/
structure TaskCliJSON where
  name : String
  tags : List String
  path : Option String
deriving DecidableEq

/-- Modelled from the spec: construction of a `TaskCliJSON` (the class is
referenced at line 195 but defined outside src/); per spec §4.3 its name is
the task name falling back to the action identifier, its tags are the
effective tags sorted, and its path is present only when path reporting was
requested. -/
def mkTaskCliJSON (opts : Opts) (curTags : List String) (t : Task) : TaskCliJSON :=
  { name := if t.name = "" then t.action else t.name
    tags := curTags
    path := if opts.listtaskswithpath then some t.path else Option.none }

/-- One leaf-task step of `_process_block` (lines 175-195): a `meta` task is
skipped before anything else; otherwise `all_tags.update(task.tags)` runs
unconditionally (line 179) and, when a task-listing flag is set, the task's
display line is composed and, for JSON output, a `TaskCliJSON` is appended.
`acc` is the running content of the play's `all_tags` set. The returned
triple is (text emitted, JSON summaries emitted, updated `all_tags`). -/
def processTask (opts : Opts) (mytags anc acc : List String) (t : Task) :
    String × List TaskCliJSON × List String :=
  if t.action = "meta" then ("", [], acc)
  else
    let acc2 := acc ++ attrTags anc t
    if opts.listtasks || opts.listtaskswithpath || opts.listtasksjson then
      let curTags := sortedUnion mytags (attrTags anc t)
      let line :=
        "      " ++ (if t.name = "" then t.action else t.name)
          ++ "\tTAGS: [" ++ String.intercalate ", " curTags ++ "]"
          ++ (if opts.listtaskswithpath then "\tPATH: [" ++ t.path ++ "]" else "")
          ++ "\n"
      let jl := if opts.listtasksjson then [mkTaskCliJSON opts curTags t] else []
      (line, jl, acc2)
    else ("", [], acc2)

mutual
/-- One entry of the `for task in b.block` loop of `_process_block`
(lines 170-195): a nested block is recursed into (line 172), its declared tags
extending the ancestor tag path; a leaf task is handled by `processTask`. -/
def processItem (opts : Opts) (mytags anc acc : List String) :
    BlockItem → String × List TaskCliJSON × List String
  | BlockItem.task t => processTask opts mytags anc acc t
  | BlockItem.block btags items => processItems opts mytags (anc ++ btags) acc items

/-- The body of `_process_block` (lines 167-197): fold over the entry list,
concatenating emitted text (`taskmsg += ...`) and emitted JSON summaries
(`task_list += ...`) and threading the mutated `all_tags` set. -/
def processItems (opts : Opts) (mytags anc acc : List String) :
    BlockItems → String × List TaskCliJSON × List String
  | BlockItems.nil => ("", [], acc)
  | BlockItems.cons i rest =>
    let r1 := processItem opts mytags anc acc i
    let r2 := processItems opts mytags anc r1.2.2 rest
    (r1.1 ++ r2.1, r1.2.1 ++ r2.2.1, r2.2.2)
end

/-- `_process_block(block)` applied to one top-level block: its own declared
tags start the ancestor tag path of its entries. -/
def process_block (opts : Opts) (mytags acc : List String) (b : Block) :
    String × List TaskCliJSON × List String :=
  processItems opts mytags b.tags acc b.items

/-- The top-level loop at lines 201-207: each filtered block is skipped when
`has_tasks()` is false, otherwise processed, with text, summary list and
`all_tags` accumulated across blocks. -/
def processTop (opts : Opts) (mytags acc : List String) :
    List Block → String × List TaskCliJSON × List String
  | [] => ("", [], acc)
  | b :: rest =>
    if hasTasks b then
      let r1 := process_block opts mytags acc b
      let r2 := processTop opts mytags r1.2.2 rest
      (r1.1 ++ r2.1, r1.2.1 ++ r2.2.1, r2.2.2)
    else processTop opts mytags acc rest

mutual
/-- Specification-side depth-first pre-order of a block entry: the list of
(ancestor block tags on the path, task) pairs of the non-control leaf tasks,
in declaration order (spec §3 invariants and §4.1). -/
def preorderItem (anc : List String) : BlockItem → List (List String × Task)
  | BlockItem.task t => if t.action = "meta" then [] else [(anc, t)]
  | BlockItem.block btags items => preorderItems (anc ++ btags) items

/-- Specification-side depth-first pre-order of an entry list. -/
def preorderItems (anc : List String) : BlockItems → List (List String × Task)
  | BlockItems.nil => []
  | BlockItems.cons i rest => preorderItem anc i ++ preorderItems anc rest
end

/-- Specification-side pre-order over a play's top-level block list. -/
def preorderTop : List Block → List (List String × Task)
  | [] => []
  | b :: rest => preorderItems b.tags b.items ++ preorderTop rest

/-- The display line of one listed task (lines 180-192), as a function of the
ancestor-path/task pair: name falling back to action, sorted effective tags,
optional path suffix; empty when no task-listing flag is set. -/
def taskLine (opts : Opts) (mytags : List String) (p : List String × Task) : String :=
  if opts.listtasks || opts.listtaskswithpath || opts.listtasksjson then
    "      " ++ (if p.2.name = "" then p.2.action else p.2.name)
      ++ "\tTAGS: [" ++ String.intercalate ", " (sortedUnion mytags (attrTags p.1 p.2)) ++ "]"
      ++ (if opts.listtaskswithpath then "\tPATH: [" ++ p.2.path ++ "]" else "")
      ++ "\n"
  else ""

/-- Text rendering of a pre-order task sequence: the concatenation of the
tasks' display lines. -/
def renderText (opts : Opts) (mytags : List String) : List (List String × Task) → String
  | [] => ""
  | p :: rest => taskLine opts mytags p ++ renderText opts mytags rest

/-- JSON-summary rendering of a pre-order task sequence. -/
def renderJson (opts : Opts) (mytags : List String) (ps : List (List String × Task)) :
    List TaskCliJSON :=
  ps.map fun p => mkTaskCliJSON opts (sortedUnion mytags (attrTags p.1 p.2)) p.2

/-- The JSON summaries actually produced: built only under `listtasksjson`
(line 194). -/
def jsonPart (opts : Opts) (mytags : List String) (ps : List (List String × Task)) :
    List TaskCliJSON :=
  if opts.listtasksjson then renderJson opts mytags ps else []

/-- The tags contributed to the play's `all_tags` set by a pre-order task
sequence, in contribution order. -/
def collectTags : List (List String × Task) → List String
  | [] => []
  | p :: rest => attrTags p.1 p.2 ++ collectTags rest

/-- The property of being one possible iteration order of a Python set whose
inserted elements are `u`: a duplicate-free list with exactly the membership
of `u`. -/
def IsEnumOf (e u : List String) : Prop :=
  e.Nodup ∧ (∀ x ∈ e, x ∈ u) ∧ (∀ x ∈ u, x ∈ e)

instance (e u : List String) : Decidable (IsEnumOf e u) := by
  unfold IsEnumOf
  exact inferInstance

mutual
/-- Number of leaf tasks (control-only ones included) below a block entry:
"has no tasks remaining after tag filtering" for a nested block means this
count is zero for its entry list. -/
def itemTaskCount : BlockItem → Nat
  | BlockItem.task _ => 1
  | BlockItem.block _ items => itemsTaskCount items

/-- Number of leaf tasks below an entry list. -/
def itemsTaskCount : BlockItems → Nat
  | BlockItems.nil => 0
  | BlockItems.cons i rest => itemTaskCount i + itemsTaskCount rest
end

/-- The per-play header line built at lines 143-145: the play's tag set is
joined with a bare comma in whatever order the set enumeration yields
(`','.join(mytags)` with `mytags = set(play.tags)`); `tagEnum` is that
enumeration. -/
def playTagsLine (idx : Nat) (hosts : List String) (name : String)
    (tagEnum : List String) : String :=
  "\n  play #" ++ toString (idx + 1) ++ " (" ++ String.intercalate "," hosts ++ "): "
    ++ name ++ "\tTAGS: [" ++ String.intercalate "," tagEnum ++ "]"

/-- The rendered task-tag bracket content of lines 181-188: the union set is
enumerated (in unspecified order `e`), sorted and joined with a comma and a
space. -/
def renderedTaskTags (e : List String) : String :=
  String.intercalate ", " (List.insertionSort strLe e)

/-- The end-of-play aggregate line of lines 209-212 (`--list-tags`). -/
def taskTagsLine (mytags allTags : List String) : String :=
  "      TASK TAGS: [" ++ String.intercalate ", " (sortedUnion mytags allTags) ++ "]\n"

/-- The per-play task section of `PlaybookCLI.run` (lines 160-212): the
`    tasks:` header when a task-listing flag is set, the traversal text, and
the aggregate tag line when `--list-tags` is set. -/
structure PlayData where
  hosts : List String
  name : String
  tags : List String
  blocks : List Block

def playListing (opts : Opts) (p : PlayData) : String :=
  (if opts.listtasks || opts.listtaskswithpath || opts.listtasksjson then "    tasks:\n" else "")
    ++ (processTop opts p.tags [] p.blocks).1
    ++ (if opts.listtags then taskTagsLine p.tags (processTop opts p.tags [] p.blocks).2.2 else "")

/-- What `os.path.exists` / `os.path.isfile` / `stat.S_ISFIFO` report for a
path: missing, a regular file, a FIFO, or something else that exists (for
example a directory). -/
inductive FileKind : Type where
  | absent : FileKind
  | regular : FileKind
  | fifo : FileKind
  | otherKind : FileKind
deriving DecidableEq

/-- The pre-run check of lines 90-96: every playbook argument must exist and
be a regular file or a FIFO; the first offender raises `AnsibleError` with
the corresponding message. -/
def checkPlaybooks (fs : String → FileKind) : List String → Except String Unit
  | [] => Except.ok ()
  | p :: rest =>
    match fs p with
    | FileKind.absent => Except.error ("the playbook: " ++ p ++ " could not be found")
    | FileKind.otherKind =>
      Except.error ("the playbook: " ++ p ++ " does not appear to be a file")
    | FileKind.regular => checkPlaybooks fs rest
    | FileKind.fifo => checkPlaybooks fs rest

/-- The listing path of `PlaybookCLI.run` for one playbook: the checks of
lines 90-96 run before anything is displayed (the first `display.display`
call is at line 132, after the executor has run); an `AnsibleError` raised by
the checks therefore aborts the run with no listing output, modelled by the
`Except.error` branch carrying no output lines. -/
def runList (fs : String → FileKind) (opts : Opts) (args : List String)
    (plays : List PlayData) : Except String (List String) :=
  match checkPlaybooks fs args with
  | Except.error e => Except.error e
  | Except.ok _ => Except.ok (plays.map (playListing opts))

mutual
/-- A Python value as seen by `json.dumps(..., cls=CLIEncoder)` (line 223):
`None`, strings, integers, lists, plain dicts, objects carrying a
`json_cli_repr` method whose call returns a dict (`objWithRepr`) or returns
`None` (`objReprNone`), and objects with no `json_cli_repr` attribute that
the base encoder cannot encode either (`objUnknown`). -/
inductive PyVal : Type where
  | pynone : PyVal
  | str : String → PyVal
  | int : Int → PyVal
  | list : PyValList → PyVal
  | dict : PyFields → PyVal
  | objWithRepr : PyFields → PyVal
  | objReprNone : PyVal
  | objUnknown : PyVal

/-- A Python list of values. -/
inductive PyValList : Type where
  | nil : PyValList
  | cons : PyVal → PyValList → PyValList

/-- A Python dict with string keys, in insertion order. -/
inductive PyFields : Type where
  | fnil : PyFields
  | fcons : String → PyVal → PyFields → PyFields
end

/-- The Python test `v is not None`, negated. -/
def PyVal.isNone : PyVal → Bool
  | PyVal.pynone => true
  | _ => false

/-- The dict comprehension body of `remove_nulls` (line 256): keep exactly
the entries whose value is not `None`, in order, values untouched. -/
def removeNullFields : PyFields → PyFields
  | PyFields.fnil => PyFields.fnil
  | PyFields.fcons k v rest =>
    if v.isNone then removeNullFields rest
    else PyFields.fcons k v (removeNullFields rest)

/-- `remove_nulls` (lines 253-256): the identity on `None`, and the
top-level-only comprehension `{k: v for k, v in dict.items() if v is not
None}` on a dict. -/
def remove_nulls : Option PyFields → Option PyFields
  | Option.none => Option.none
  | some d => some (removeNullFields d)

mutual
/-- A JSON document. -/
inductive PyJson : Type where
  | null : PyJson
  | str : String → PyJson
  | num : Int → PyJson
  | arr : PyJsonList → PyJson
  | obj : PyJsonFields → PyJson
deriving DecidableEq

/-- A JSON array body. -/
inductive PyJsonList : Type where
  | nil : PyJsonList
  | cons : PyJson → PyJsonList → PyJsonList
deriving DecidableEq

/-- A JSON object body, ordered. -/
inductive PyJsonFields : Type where
  | fnil : PyJsonFields
  | fcons : String → PyJson → PyJsonFields → PyJsonFields
deriving DecidableEq
end

/-- `json.JSONEncoder.default` always raises `TypeError` (its documented
contract): the error the bare `except TypeError: pass` of
`CLIEncoder.default` (lines 248-251) swallows. -/
def jsonEncoderDefault : Except String PyJson :=
  Except.error "TypeError"

mutual
/-- `json.dumps(..., cls=CLIEncoder)`: native values are encoded directly;
an object with a `json_cli_repr` attribute is replaced by
`remove_nulls(obj.json_cli_repr())` (line 246) and that dict is encoded (its
`None`-valued fields having been removed at that one level, see
`serializeObjFields_eq_remove_nulls`); when `json_cli_repr()` returned
`None`, `remove_nulls` returns `None` and the encoder emits `null`; for an
object without the attribute the base `default` raises `TypeError`, the
handler catches it and falls through returning `None` (lines 248-251), which
the encoder emits as `null`. The `Except` result carries the `TypeError`
channel of Python's `json.dumps`. -/
def serialize : PyVal → Except String PyJson
  | PyVal.pynone => Except.ok PyJson.null
  | PyVal.str s => Except.ok (PyJson.str s)
  | PyVal.int n => Except.ok (PyJson.num n)
  | PyVal.list xs =>
    match serializeList xs with
    | Except.ok js => Except.ok (PyJson.arr js)
    | Except.error e => Except.error e
  | PyVal.dict kvs =>
    match serializeFields kvs with
    | Except.ok js => Except.ok (PyJson.obj js)
    | Except.error e => Except.error e
  | PyVal.objWithRepr r =>
    match serializeObjFields r with
    | Except.ok js => Except.ok (PyJson.obj js)
    | Except.error e => Except.error e
  | PyVal.objReprNone => Except.ok PyJson.null
  | PyVal.objUnknown =>
    match jsonEncoderDefault with
    | Except.ok j => Except.ok j
    | Except.error _ => Except.ok PyJson.null

/-- Encoding of a list's elements. -/
def serializeList : PyValList → Except String PyJsonList
  | PyValList.nil => Except.ok PyJsonList.nil
  | PyValList.cons v rest =>
    match serialize v with
    | Except.ok j =>
      match serializeList rest with
      | Except.ok js => Except.ok (PyJsonList.cons j js)
      | Except.error e => Except.error e
    | Except.error e => Except.error e

/-- Encoding of a plain dict's entries: every entry is kept, a `None` value
becoming `null`. -/
def serializeFields : PyFields → Except String PyJsonFields
  | PyFields.fnil => Except.ok PyJsonFields.fnil
  | PyFields.fcons k v rest =>
    match serialize v with
    | Except.ok j =>
      match serializeFields rest with
      | Except.ok js => Except.ok (PyJsonFields.fcons k j js)
      | Except.error e => Except.error e
    | Except.error e => Except.error e

/-- Encoding of `remove_nulls(obj.json_cli_repr())` for a repr dict `r`:
entries with value `None` are the ones `remove_nulls` removes, the others
are encoded; equal to `serializeFields (removeNullFields r)`, see
`serializeObjFields_eq_remove_nulls`. -/
def serializeObjFields : PyFields → Except String PyJsonFields
  | PyFields.fnil => Except.ok PyJsonFields.fnil
  | PyFields.fcons k v rest =>
    if v.isNone then serializeObjFields rest
    else
      match serialize v with
      | Except.ok j =>
        match serializeObjFields rest with
        | Except.ok js => Except.ok (PyJsonFields.fcons k j js)
        | Except.error e => Except.error e
      | Except.error e => Except.error e
end

/-- A list of tag strings as a Python list value. -/
def strPyList : List String → PyValList
  | [] => PyValList.nil
  | s :: rest => PyValList.cons (PyVal.str s) (strPyList rest)

/-- Modelled from the spec: the repr dict of a `TaskCliJSON` (the class is
outside src/); per spec §6 a task summary carries `name`, `tags` and an
optional `path`, the absent path being the absent/`None` field that spec
§4.3 says is omitted from the emitted document. -/
def TaskCliJSON.reprFields (t : TaskCliJSON) : PyFields :=
  PyFields.fcons "name" (PyVal.str t.name)
    (PyFields.fcons "tags" (PyVal.list (strPyList t.tags))
      (PyFields.fcons "path"
        (match t.path with
          | some p => PyVal.str p
          | Option.none => PyVal.pynone)
        PyFields.fnil))

def TaskCliJSON.toPyVal (t : TaskCliJSON) : PyVal :=
  PyVal.objWithRepr t.reprFields

/-- Modelled from the spec: a play summary (`PlayCliJSON`, constructed at
line 141, class outside src/) with the §6 shape
`{hosts, name, tags, tasks}`. -/
structure PlayCliJSON where
  hosts : String
  name : String
  tags : List String
  tasks : List TaskCliJSON

/-- A list of task summaries as a Python list value. -/
def taskPyList : List TaskCliJSON → PyValList
  | [] => PyValList.nil
  | t :: rest => PyValList.cons (TaskCliJSON.toPyVal t) (taskPyList rest)

/-- Modelled from the spec: the repr dict of a `PlayCliJSON`. -/
def PlayCliJSON.reprFields (p : PlayCliJSON) : PyFields :=
  PyFields.fcons "hosts" (PyVal.str p.hosts)
    (PyFields.fcons "name" (PyVal.str p.name)
      (PyFields.fcons "tags" (PyVal.list (strPyList p.tags))
        (PyFields.fcons "tasks" (PyVal.list (taskPyList p.tasks)) PyFields.fnil)))

def PlayCliJSON.toPyVal (p : PlayCliJSON) : PyVal :=
  PyVal.objWithRepr p.reprFields

/-- A list of play summaries as a Python list value. -/
def playPyList : List PlayCliJSON → PyValList
  | [] => PyValList.nil
  | p :: rest => PyValList.cons (PlayCliJSON.toPyVal p) (playPyList rest)

/-- `PlaybookCliJSON` (lines 258-289): playbook path, play summaries,
playbook directory; in the listing flow `set_plays` is always called before
serialization (line 222), so `plays` is a list. -/
structure PlaybookCliJSON where
  playbook : String
  plays : List PlayCliJSON
  playbook_dir : String

/-- `PlaybookCliJSON.json_repr` (lines 288-289) returns `self.__dict__`: a
plain dict with keys `playbook`, `plays`, `playbook_dir` in attribute
insertion order (the surviving `__init__` at lines 268-271). This dict is
passed directly to `json.dumps` at line 223, so no `remove_nulls` runs on
this outermost mapping. -/
def PlaybookCliJSON.json_repr (pb : PlaybookCliJSON) : PyVal :=
  PyVal.dict
    (PyFields.fcons "playbook" (PyVal.str pb.playbook)
      (PyFields.fcons "plays" (PyVal.list (playPyList pb.plays))
        (PyFields.fcons "playbook_dir" (PyVal.str pb.playbook_dir) PyFields.fnil)))

/-- Whether a JSON value is `null`. -/
def PyJson.isNull : PyJson → Bool
  | PyJson.null => true
  | _ => false

mutual
/-- No object field anywhere in the document holds `null`. -/
def jsonNoNullKey : PyJson → Bool
  | PyJson.arr xs => listNoNullKey xs
  | PyJson.obj kvs => fieldsNoNullKey kvs
  | _ => true

/-- No object field below any array element holds `null`. -/
def listNoNullKey : PyJsonList → Bool
  | PyJsonList.nil => true
  | PyJsonList.cons j rest => jsonNoNullKey j && listNoNullKey rest

/-- No field of this object or below it holds `null`. -/
def fieldsNoNullKey : PyJsonFields → Bool
  | PyJsonFields.fnil => true
  | PyJsonFields.fcons _ v rest => !v.isNull && jsonNoNullKey v && fieldsNoNullKey rest
end

/-- The encoded form of a list of tag strings. -/
def jstrList : List String → PyJsonList
  | [] => PyJsonList.nil
  | s :: rest => PyJsonList.cons (PyJson.str s) (jstrList rest)

/-- The encoded form of one task summary: the `path` key is present exactly
when the summary has a path. -/
def taskJson (t : TaskCliJSON) : PyJsonFields :=
  PyJsonFields.fcons "name" (PyJson.str t.name)
    (PyJsonFields.fcons "tags" (PyJson.arr (jstrList t.tags))
      (match t.path with
        | some p => PyJsonFields.fcons "path" (PyJson.str p) PyJsonFields.fnil
        | Option.none => PyJsonFields.fnil))

/-- Membership of a key-value entry in a Python dict. -/
def fieldMem (k : String) (v : PyVal) : PyFields → Prop
  | PyFields.fnil => False
  | PyFields.fcons k2 v2 rest => (k = k2 ∧ v = v2) ∨ fieldMem k v rest

theorem charListLe_total : ∀ x y : List Char, charListLe x y = true ∨ charListLe y x = true
  | [], _ => Or.inl rfl
  | _ :: _, [] => Or.inr rfl
  | a :: as, b :: bs => by
    rcases Nat.lt_trichotomy a.toNat b.toNat with h | h | h
    · exact Or.inl (by simp [charListLe, h])
    · rcases charListLe_total as bs with ih | ih
      · exact Or.inl (by simp [charListLe, h, ih])
      · exact Or.inr (by simp [charListLe, h.symm, ih])
    · exact Or.inr (by simp [charListLe, h])

theorem charListLe_trans : ∀ x y z : List Char,
    charListLe x y = true → charListLe y z = true → charListLe x z = true
  | [], _, _ => fun _ _ => rfl
  | a :: as, [], _ => fun h _ => by simp [charListLe] at h
  | _ :: _, _ :: _, [] => fun _ h => by simp [charListLe] at h
  | a :: as, b :: bs, c :: cs => fun h1 h2 => by
    simp only [charListLe] at h1 h2 ⊢
    rcases Nat.lt_trichotomy a.toNat b.toNat with hab | hab | hab
    · rcases Nat.lt_trichotomy b.toNat c.toNat with hbc | hbc | hbc
      · rw [if_pos (by omega)]
      · rw [if_pos (by omega)]
      · rw [if_neg (by omega), if_pos hbc] at h2
        exact absurd h2 (by simp)
    · rcases Nat.lt_trichotomy b.toNat c.toNat with hbc | hbc | hbc
      · rw [if_pos (by omega)]
      · rw [if_neg (by omega), if_neg (by omega)] at h1 h2 ⊢
        exact charListLe_trans as bs cs h1 h2
      · rw [if_neg (by omega), if_pos hbc] at h2
        exact absurd h2 (by simp)
    · rw [if_neg (by omega), if_pos hab] at h1
      exact absurd h1 (by simp)

theorem char_eq_of_toNat_eq {a b : Char} (h : a.toNat = b.toNat) : a = b := by
  have hv : a.val = b.val := UInt32.ext h
  cases a
  cases b
  simp_all

theorem charListLe_antisymm : ∀ x y : List Char,
    charListLe x y = true → charListLe y x = true → x = y
  | [], [] => fun _ _ => rfl
  | [], _ :: _ => fun _ h => by simp [charListLe] at h
  | _ :: _, [] => fun h _ => by simp [charListLe] at h
  | a :: as, b :: bs => fun h1 h2 => by
    simp only [charListLe] at h1 h2
    rcases Nat.lt_trichotomy a.toNat b.toNat with hab | hab | hab
    · rw [if_neg (by omega), if_pos hab] at h2
      exact absurd h2 (by simp)
    · rw [if_neg (by omega), if_neg (by omega)] at h1 h2
      rw [char_eq_of_toNat_eq hab, charListLe_antisymm as bs h1 h2]
    · rw [if_neg (by omega), if_pos hab] at h1
      exact absurd h1 (by simp)

instance : IsTotal String strLe :=
  ⟨fun a b => charListLe_total a.data b.data⟩

instance : IsTrans String strLe :=
  ⟨fun a b c => charListLe_trans a.data b.data c.data⟩

instance : IsAntisymm String strLe :=
  ⟨fun a b h1 h2 => by
    have := charListLe_antisymm a.data b.data h1 h2
    cases a
    cases b
    simp_all⟩

instance : IsRefl String strLe :=
  ⟨fun a => (charListLe_total a.data a.data).elim id id⟩

/-- Sorting any iteration order of a set yields the same list: the value of
`cur_tags.sort()` does not depend on set-iteration order. -/
theorem insertionSort_eq_of_isEnumOf (e u : List String) (h : IsEnumOf e u) :
    List.insertionSort strLe e = List.insertionSort strLe u.dedup := by
  have hperm : e.Perm u.dedup := by
    rw [List.perm_ext_iff_of_nodup h.1 (List.nodup_dedup u)]
    intro a
    rw [List.mem_dedup]
    exact ⟨fun ha => h.2.1 a ha, fun ha => h.2.2 a ha⟩
  exact List.eq_of_perm_of_sorted
    (((List.perm_insertionSort strLe e).trans hperm).trans
      (List.perm_insertionSort strLe u.dedup).symm)
    (List.sorted_insertionSort strLe e)
    (List.sorted_insertionSort strLe u.dedup)

theorem sortedUnion_sorted (xs ys : List String) :
    List.Sorted strLe (sortedUnion xs ys) :=
  List.sorted_insertionSort strLe ((xs ++ ys).dedup)

theorem sortedUnion_nodup (xs ys : List String) : (sortedUnion xs ys).Nodup :=
  (List.perm_insertionSort strLe ((xs ++ ys).dedup)).nodup_iff.mpr
    (List.nodup_dedup (xs ++ ys))

theorem mem_sortedUnion (x : String) (xs ys : List String) :
    x ∈ sortedUnion xs ys ↔ x ∈ xs ∨ x ∈ ys := by
  unfold sortedUnion
  rw [(List.perm_insertionSort strLe ((xs ++ ys).dedup)).mem_iff,
    List.mem_dedup, List.mem_append]

theorem preorderItems_append (anc : List String) : (xs ys : BlockItems) →
    preorderItems anc (BlockItems.append xs ys) =
      preorderItems anc xs ++ preorderItems anc ys
  | BlockItems.nil, ys => by simp [BlockItems.append, preorderItems]
  | BlockItems.cons i rest, ys => by
    simp [BlockItems.append, preorderItems, preorderItems_append anc rest ys]

theorem renderText_append (opts : Opts) (mytags : List String)
    (ps qs : List (List String × Task)) :
    renderText opts mytags (ps ++ qs) =
      renderText opts mytags ps ++ renderText opts mytags qs := by
  induction ps with
  | nil => simp [renderText]
  | cons p rest ih => simp [renderText, ih, String.append_assoc]

theorem renderJson_append (opts : Opts) (mytags : List String)
    (ps qs : List (List String × Task)) :
    renderJson opts mytags (ps ++ qs) =
      renderJson opts mytags ps ++ renderJson opts mytags qs := by
  simp [renderJson]

theorem jsonPart_append (opts : Opts) (mytags : List String)
    (ps qs : List (List String × Task)) :
    jsonPart opts mytags (ps ++ qs) =
      jsonPart opts mytags ps ++ jsonPart opts mytags qs := by
  unfold jsonPart
  by_cases hj : opts.listtasksjson
  · simp [hj, renderJson_append]
  · simp [hj]

theorem collectTags_append (ps qs : List (List String × Task)) :
    collectTags (ps ++ qs) = collectTags ps ++ collectTags qs := by
  induction ps with
  | nil => simp [collectTags]
  | cons p rest ih => simp [collectTags, ih]

theorem processTask_eq (opts : Opts) (mytags anc acc : List String) (t : Task) :
    processTask opts mytags anc acc t =
      (renderText opts mytags (preorderItem anc (BlockItem.task t)),
       jsonPart opts mytags (preorderItem anc (BlockItem.task t)),
       acc ++ collectTags (preorderItem anc (BlockItem.task t))) := by
  by_cases hm : t.action = "meta"
  · simp [processTask, preorderItem, hm, renderText, jsonPart, renderJson, collectTags]
  · by_cases hf : (opts.listtasks || opts.listtaskswithpath || opts.listtasksjson) = true
    · simp only [processTask, preorderItem, hm, if_neg, hf, if_true, ite_false,
        renderText, taskLine, jsonPart, renderJson, collectTags, List.map_cons,
        List.map_nil, List.append_nil]
      by_cases hj : opts.listtasksjson
      · simp [hm, hf, hj]
      · simp [hm, hf, hj]
    · have hj : opts.listtasksjson = false := by
        revert hf
        cases opts.listtasksjson <;> simp
      have ht : opts.listtasks = false := by
        revert hf
        cases opts.listtasks <;> simp
      have hw : opts.listtaskswithpath = false := by
        revert hf
        cases opts.listtaskswithpath <;> simp
      simp [processTask, preorderItem, hm, renderText, taskLine, jsonPart,
        renderJson, collectTags, hj, ht, hw]

mutual
theorem processItem_eq (opts : Opts) (mytags anc acc : List String) :
    (i : BlockItem) →
    processItem opts mytags anc acc i =
      (renderText opts mytags (preorderItem anc i),
       jsonPart opts mytags (preorderItem anc i),
       acc ++ collectTags (preorderItem anc i))
  | BlockItem.task t => processTask_eq opts mytags anc acc t
  | BlockItem.block btags items => by
    simp only [processItem, preorderItem]
    exact processItems_eq opts mytags (anc ++ btags) acc items

theorem processItems_eq (opts : Opts) (mytags anc acc : List String) :
    (l : BlockItems) →
    processItems opts mytags anc acc l =
      (renderText opts mytags (preorderItems anc l),
       jsonPart opts mytags (preorderItems anc l),
       acc ++ collectTags (preorderItems anc l))
  | BlockItems.nil => by
    simp [processItems, preorderItems, renderText, jsonPart, renderJson, collectTags]
  | BlockItems.cons i rest => by
    simp only [processItems, processItem_eq opts mytags anc acc i]
    simp only [processItems_eq opts mytags anc (acc ++ collectTags (preorderItem anc i)) rest]
    simp [preorderItems, renderText_append, jsonPart_append, collectTags_append,
      String.append_assoc]
end

theorem hasTasks_false_items (b : Block) (h : hasTasks b = false) :
    b.items = BlockItems.nil := by
  unfold hasTasks at h
  cases hb : b.items with
  | nil => rfl
  | cons i rest => rw [hb] at h; cases h

theorem processTop_eq (opts : Opts) (mytags : List String) : (acc : List String) →
    (blocks : List Block) →
    processTop opts mytags acc blocks =
      (renderText opts mytags (preorderTop blocks),
       jsonPart opts mytags (preorderTop blocks),
       acc ++ collectTags (preorderTop blocks))
  | acc, [] => by
    simp [processTop, preorderTop, renderText, jsonPart, renderJson, collectTags]
  | acc, b :: rest => by
    by_cases hb : hasTasks b
    · simp only [processTop, if_pos hb, process_block,
        processItems_eq opts mytags b.tags acc b.items]
      simp only [processTop_eq opts mytags (acc ++ collectTags (preorderItems b.tags b.items)) rest]
      simp [preorderTop, renderText_append, jsonPart_append, collectTags_append,
        String.append_assoc]
    · have hnil := hasTasks_false_items b (by revert hb; cases hasTasks b <;> simp)
      rw [processTop, if_neg hb, processTop_eq opts mytags acc rest]
      simp [preorderTop, hnil, preorderItems]

mutual
theorem preorderItem_nil_of_taskCount (anc : List String) : (i : BlockItem) →
    itemTaskCount i = 0 → preorderItem anc i = []
  | BlockItem.task _ => fun h => by simp [itemTaskCount] at h
  | BlockItem.block btags items => fun h => by
    simp only [itemTaskCount] at h
    simp only [preorderItem]
    exact preorderItems_nil_of_taskCount (anc ++ btags) items h

theorem preorderItems_nil_of_taskCount (anc : List String) : (l : BlockItems) →
    itemsTaskCount l = 0 → preorderItems anc l = []
  | BlockItems.nil => fun _ => rfl
  | BlockItems.cons i rest => fun h => by
    simp only [itemsTaskCount] at h
    simp only [preorderItems]
    rw [preorderItem_nil_of_taskCount anc i (by omega),
      preorderItems_nil_of_taskCount anc rest (by omega)]
    rfl
end

/-- Encoding an object's repr dict with `None`-valued entries skipped is
exactly encoding `remove_nulls` of it: the fused definition matches the
source's `remove_nulls(obj.json_cli_repr())` followed by dict encoding. -/
theorem serializeObjFields_eq_remove_nulls : (r : PyFields) →
    serializeObjFields r = serializeFields (removeNullFields r)
  | PyFields.fnil => rfl
  | PyFields.fcons k v rest => by
    by_cases hv : v.isNone = true
    · simp [serializeObjFields, removeNullFields, hv,
        serializeObjFields_eq_remove_nulls rest]
    · simp [serializeObjFields, removeNullFields, hv, serializeFields,
        serializeObjFields_eq_remove_nulls rest]

mutual
theorem serialize_total : (v : PyVal) → ∃ j, serialize v = Except.ok j
  | PyVal.pynone => ⟨PyJson.null, rfl⟩
  | PyVal.str s => ⟨PyJson.str s, rfl⟩
  | PyVal.int n => ⟨PyJson.num n, rfl⟩
  | PyVal.list xs => by
    obtain ⟨js, hjs⟩ := serializeList_total xs
    exact ⟨PyJson.arr js, by simp [serialize, hjs]⟩
  | PyVal.dict kvs => by
    obtain ⟨js, hjs⟩ := serializeFields_total kvs
    exact ⟨PyJson.obj js, by simp [serialize, hjs]⟩
  | PyVal.objWithRepr r => by
    obtain ⟨js, hjs⟩ := serializeObjFields_total r
    exact ⟨PyJson.obj js, by simp [serialize, hjs]⟩
  | PyVal.objReprNone => ⟨PyJson.null, rfl⟩
  | PyVal.objUnknown => ⟨PyJson.null, rfl⟩

theorem serializeList_total : (l : PyValList) → ∃ js, serializeList l = Except.ok js
  | PyValList.nil => ⟨PyJsonList.nil, rfl⟩
  | PyValList.cons v rest => by
    obtain ⟨j, hj⟩ := serialize_total v
    obtain ⟨js, hjs⟩ := serializeList_total rest
    exact ⟨PyJsonList.cons j js, by simp [serializeList, hj, hjs]⟩

theorem serializeFields_total : (f : PyFields) → ∃ js, serializeFields f = Except.ok js
  | PyFields.fnil => ⟨PyJsonFields.fnil, rfl⟩
  | PyFields.fcons k v rest => by
    obtain ⟨j, hj⟩ := serialize_total v
    obtain ⟨js, hjs⟩ := serializeFields_total rest
    exact ⟨PyJsonFields.fcons k j js, by simp [serializeFields, hj, hjs]⟩

theorem serializeObjFields_total : (f : PyFields) →
    ∃ js, serializeObjFields f = Except.ok js
  | PyFields.fnil => ⟨PyJsonFields.fnil, rfl⟩
  | PyFields.fcons k v rest => by
    obtain ⟨j, hj⟩ := serialize_total v
    obtain ⟨js, hjs⟩ := serializeObjFields_total rest
    by_cases hv : v.isNone = true
    · exact ⟨js, by simp [serializeObjFields, hv, hjs]⟩
    · exact ⟨PyJsonFields.fcons k j js, by simp [serializeObjFields, hv, hj, hjs]⟩
end

theorem serializeList_strPyList (ts : List String) :
    serializeList (strPyList ts) = Except.ok (jstrList ts) ∧
      listNoNullKey (jstrList ts) = true := by
  induction ts with
  | nil => exact ⟨rfl, rfl⟩
  | cons s rest ih =>
    refine ⟨?_, ?_⟩
    · simp [strPyList, serializeList, serialize, jstrList, ih.1]
    · simp [jstrList, listNoNullKey, jsonNoNullKey, ih.2]

theorem serialize_taskCliJSON (t : TaskCliJSON) :
    serialize (TaskCliJSON.toPyVal t) = Except.ok (PyJson.obj (taskJson t)) ∧
      fieldsNoNullKey (taskJson t) = true := by
  obtain ⟨h1, h2⟩ := serializeList_strPyList t.tags
  cases hp : t.path with
  | none =>
    refine ⟨?_, ?_⟩
    · simp [TaskCliJSON.toPyVal, TaskCliJSON.reprFields, serialize, serializeObjFields,
        PyVal.isNone, taskJson, hp, h1]
    · simp [taskJson, hp, fieldsNoNullKey, jsonNoNullKey, PyJson.isNull, h2]
  | some p =>
    refine ⟨?_, ?_⟩
    · simp [TaskCliJSON.toPyVal, TaskCliJSON.reprFields, serialize, serializeObjFields,
        PyVal.isNone, taskJson, hp, h1]
    · simp [taskJson, hp, fieldsNoNullKey, jsonNoNullKey, PyJson.isNull, h2]

theorem serialize_taskPyList (ts : List TaskCliJSON) :
    ∃ js, serializeList (taskPyList ts) = Except.ok js ∧ listNoNullKey js = true := by
  induction ts with
  | nil => exact ⟨PyJsonList.nil, rfl, rfl⟩
  | cons t rest ih =>
    obtain ⟨js, hjs, hnn⟩ := ih
    obtain ⟨h1, h2⟩ := serialize_taskCliJSON t
    refine ⟨PyJsonList.cons (PyJson.obj (taskJson t)) js, ?_, ?_⟩
    · simp [taskPyList, serializeList, h1, hjs]
    · simp [listNoNullKey, jsonNoNullKey, h2, hnn]

theorem serialize_playCliJSON (p : PlayCliJSON) :
    ∃ js, serialize (PlayCliJSON.toPyVal p) = Except.ok (PyJson.obj js) ∧
      fieldsNoNullKey js = true := by
  obtain ⟨hts1, hts2⟩ := serializeList_strPyList p.tags
  obtain ⟨tjs, htj1, htj2⟩ := serialize_taskPyList p.tasks
  refine ⟨PyJsonFields.fcons "hosts" (PyJson.str p.hosts)
    (PyJsonFields.fcons "name" (PyJson.str p.name)
      (PyJsonFields.fcons "tags" (PyJson.arr (jstrList p.tags))
        (PyJsonFields.fcons "tasks" (PyJson.arr tjs) PyJsonFields.fnil))), ?_, ?_⟩
  · simp [PlayCliJSON.toPyVal, PlayCliJSON.reprFields, serialize, serializeObjFields,
      PyVal.isNone, hts1, htj1]
  · simp [fieldsNoNullKey, jsonNoNullKey, PyJson.isNull, hts2, htj2]

theorem serialize_playPyList (ps : List PlayCliJSON) :
    ∃ js, serializeList (playPyList ps) = Except.ok js ∧ listNoNullKey js = true := by
  induction ps with
  | nil => exact ⟨PyJsonList.nil, rfl, rfl⟩
  | cons p rest ih =>
    obtain ⟨js, hjs, hnn⟩ := ih
    obtain ⟨pjs, hp1, hp2⟩ := serialize_playCliJSON p
    refine ⟨PyJsonList.cons (PyJson.obj pjs) js, ?_, ?_⟩
    · simp [playPyList, serializeList, hp1, hjs]
    · simp [listNoNullKey, jsonNoNullKey, hp2, hnn]

theorem serialize_playbook_noNull (pb : PlaybookCliJSON) :
    ∃ j, serialize (PlaybookCliJSON.json_repr pb) = Except.ok j ∧
      jsonNoNullKey j = true := by
  obtain ⟨pjs, hp1, hp2⟩ := serialize_playPyList pb.plays
  refine ⟨PyJson.obj
    (PyJsonFields.fcons "playbook" (PyJson.str pb.playbook)
      (PyJsonFields.fcons "plays" (PyJson.arr pjs)
        (PyJsonFields.fcons "playbook_dir" (PyJson.str pb.playbook_dir)
          PyJsonFields.fnil))), ?_, ?_⟩
  · simp [PlaybookCliJSON.json_repr, serialize, serializeFields, hp1]
  · simp [jsonNoNullKey, fieldsNoNullKey, PyJson.isNull, hp2]

theorem preorderTop_append : (l1 l2 : List Block) →
    preorderTop (l1 ++ l2) = preorderTop l1 ++ preorderTop l2
  | [], l2 => by simp [preorderTop]
  | b :: rest, l2 => by simp [preorderTop, preorderTop_append rest l2]

theorem fieldMem_removeNullFields (k : String) (v : PyVal) : (d : PyFields) →
    (fieldMem k v (removeNullFields d) ↔ (fieldMem k v d ∧ v.isNone = false))
  | PyFields.fnil => by simp [removeNullFields, fieldMem]
  | PyFields.fcons k2 v2 rest => by
    by_cases hv : v2.isNone = true
    · rw [removeNullFields, if_pos hv, fieldMem_removeNullFields k v rest]
      show _ ↔ ((k = k2 ∧ v = v2) ∨ fieldMem k v rest) ∧ v.isNone = false
      constructor
      · intro h
        exact ⟨Or.inr h.1, h.2⟩
      · rintro ⟨h1 | h1, h2⟩
        · rw [h1.2] at h2
          rw [h2] at hv
          cases hv
        · exact ⟨h1, h2⟩
    · rw [removeNullFields, if_neg hv]
      show ((k = k2 ∧ v = v2) ∨ fieldMem k v (removeNullFields rest)) ↔
        ((k = k2 ∧ v = v2) ∨ fieldMem k v rest) ∧ v.isNone = false
      rw [fieldMem_removeNullFields k v rest]
      constructor
      · rintro (⟨hk, hveq⟩ | ⟨h1, h2⟩)
        · refine ⟨Or.inl ⟨hk, hveq⟩, ?_⟩
          rw [hveq]
          revert hv
          cases v2.isNone <;> simp
        · exact ⟨Or.inr h1, h2⟩
      · rintro ⟨h1 | h1, h2⟩
        · exact Or.inl h1
        · exact Or.inr ⟨h1, h2⟩

theorem checkPlaybooks_error (fs : String → FileKind) (p : String)
    (hbad : fs p = FileKind.absent ∨ fs p = FileKind.otherKind) :
    (args : List String) → p ∈ args → ∃ msg, checkPlaybooks fs args = Except.error msg
  | [], h => absurd h (List.not_mem_nil p)
  | q :: rest, h => by
    cases hq : fs q with
    | absent =>
      exact ⟨"the playbook: " ++ q ++ " could not be found", by simp [checkPlaybooks, hq]⟩
    | otherKind =>
      exact ⟨"the playbook: " ++ q ++ " does not appear to be a file",
        by simp [checkPlaybooks, hq]⟩
    | regular =>
      have hpr : p ∈ rest := by
        rcases List.mem_cons.mp h with rfl | hr
        · rcases hbad with hb | hb <;> rw [hq] at hb <;> cases hb
        · exact hr
      have hrec := checkPlaybooks_error fs p hbad rest hpr
      obtain ⟨msg, hm⟩ := hrec
      exact ⟨msg, by simp [checkPlaybooks, hq, hm]⟩
    | fifo =>
      have hpr : p ∈ rest := by
        rcases List.mem_cons.mp h with rfl | hr
        · rcases hbad with hb | hb <;> rw [hq] at hb <;> cases hb
        · exact hr
      have hrec := checkPlaybooks_error fs p hbad rest hpr
      obtain ⟨msg, hm⟩ := hrec
      exact ⟨msg, by simp [checkPlaybooks, hq, hm]⟩

/-- C1: for every `PlaybookCliJSON` summary graph serialized for
`--list-tasks-json`, every absent (`None`) field is removed at every nesting
level, including fields of objects nested inside lists, so the emitted JSON
document contains no null-valued key anywhere in the tree; in particular a
task summary with an absent path, nested at depth 2 below the playbook
object, is emitted without a `path` key. -/
theorem C1_json_no_null_keys :
    (∀ pb : PlaybookCliJSON, ∃ j,
      serialize (PlaybookCliJSON.json_repr pb) = Except.ok j ∧ jsonNoNullKey j = true) ∧
    serialize (PlaybookCliJSON.json_repr
      { playbook := "site.yml"
        plays := [{ hosts := "all", name := "p1", tags := ["p"],
                    tasks := [{ name := "t1", tags := ["a", "p"], path := Option.none }] }]
        playbook_dir := "/work" }) =
      Except.ok (PyJson.obj (PyJsonFields.fcons "playbook" (PyJson.str "site.yml")
        (PyJsonFields.fcons "plays" (PyJson.arr (PyJsonList.cons (PyJson.obj
          (PyJsonFields.fcons "hosts" (PyJson.str "all")
            (PyJsonFields.fcons "name" (PyJson.str "p1")
              (PyJsonFields.fcons "tags"
                  (PyJson.arr (PyJsonList.cons (PyJson.str "p") PyJsonList.nil))
                (PyJsonFields.fcons "tasks" (PyJson.arr (PyJsonList.cons (PyJson.obj
                    (PyJsonFields.fcons "name" (PyJson.str "t1")
                      (PyJsonFields.fcons "tags" (PyJson.arr (PyJsonList.cons (PyJson.str "a")
                          (PyJsonList.cons (PyJson.str "p") PyJsonList.nil)))
                        PyJsonFields.fnil)))
                    PyJsonList.nil))
                  PyJsonFields.fnil)))))
          PyJsonList.nil))
        (PyJsonFields.fcons "playbook_dir" (PyJson.str "/work") PyJsonFields.fnil)))) :=
  ⟨serialize_playbook_noNull, rfl⟩

/-- C2 counterexample: the per-play `TAGS:` line (lines 143-145) joins the
play's tag set in set-iteration order without sorting; `["b", "a"]` and
`["a", "b"]` are both legitimate iteration orders of the same two-element
tag set, and they yield different output bytes, so the line is neither
always sorted nor independent of set-iteration order. -/
theorem C2_counterexample :
    IsEnumOf ["b", "a"] ["a", "b"] ∧ IsEnumOf ["a", "b"] ["a", "b"] ∧
    playTagsLine 0 ["all"] "p1" ["b", "a"] ≠ playTagsLine 0 ["all"] "p1" ["a", "b"] :=
  ⟨by decide, by decide, by decide⟩

/-- C2 amended: every task-level tag list and the `TASK TAGS` aggregate are
sorted before emission (lines 181-182 and 210-211), so those lines do not
depend on set-iteration order: sorting any iteration order of the union set
yields the canonical `sortedUnion`, hence identical rendered text. The
per-play `TAGS:` line, by contrast, is emitted unsorted in iteration order
(see `C2_counterexample`). -/
theorem C2_amended (mytags atags e : List String) (h : IsEnumOf e (mytags ++ atags)) :
    List.insertionSort strLe e = sortedUnion mytags atags ∧
    renderedTaskTags e = String.intercalate ", " (sortedUnion mytags atags) := by
  have h1 : List.insertionSort strLe e = sortedUnion mytags atags :=
    insertionSort_eq_of_isEnumOf e (mytags ++ atags) h
  exact ⟨h1, by rw [renderedTaskTags, h1]⟩

/-- C2 witness: the amended statement applied to the iteration order
`["b", "a"]` of the union of play tags `["a"]` and task tags `["b"]`. -/
theorem C2_amended_witness :
    IsEnumOf ["b", "a"] (["a"] ++ ["b"]) ∧
    (List.insertionSort strLe ["b", "a"] = sortedUnion ["a"] ["b"] ∧
      renderedTaskTags ["b", "a"] = String.intercalate ", " (sortedUnion ["a"] ["b"])) :=
  ⟨by decide, C2_amended ["a"] ["b"] ["b", "a"] (by decide)⟩

/-- C3: for every task emitted into the JSON summary list, the displayed
tags equal the union of the play's tags, the declared tags of every
ancestor block on the task's path, and the task's own tags, deduplicated
and sorted lexicographically: the emitted list is the `renderJson` image of
the pre-order, and each summary's tag list is sorted, duplicate-free and
has exactly that union as membership. -/
theorem C3_effective_tags (opts : Opts) (mytags acc : List String) (blocks : List Block)
    (h : opts.listtasksjson = true) :
    (processTop opts mytags acc blocks).2.1 = renderJson opts mytags (preorderTop blocks) ∧
    ∀ anc t x,
      (mkTaskCliJSON opts (sortedUnion mytags (attrTags anc t)) t).tags.Sorted strLe ∧
      (mkTaskCliJSON opts (sortedUnion mytags (attrTags anc t)) t).tags.Nodup ∧
      (x ∈ (mkTaskCliJSON opts (sortedUnion mytags (attrTags anc t)) t).tags ↔
        (x ∈ mytags ∨ x ∈ anc ∨ x ∈ t.tags)) := by
  constructor
  · rw [processTop_eq]
    simp [jsonPart, h]
  · intro anc t x
    have htags : (mkTaskCliJSON opts (sortedUnion mytags (attrTags anc t)) t).tags
        = sortedUnion mytags (attrTags anc t) := rfl
    refine ⟨?_, ?_, ?_⟩
    · rw [htags]
      exact sortedUnion_sorted mytags (attrTags anc t)
    · rw [htags]
      exact sortedUnion_nodup mytags (attrTags anc t)
    · rw [htags, mem_sortedUnion]
      unfold attrTags
      rw [List.mem_append]

/-- C3 witness: the effective-tag statement at a concrete play with tags
`["p"]` and a single block containing one task tagged `["a"]`. -/
theorem C3_effective_tags_witness :
    (⟨false, false, true, false⟩ : Opts).listtasksjson = true ∧
    ((processTop ⟨false, false, true, false⟩ ["p"] []
        [Block.mk [] (BlockItems.cons (BlockItem.task ⟨"t1", "debug", ["a"], "x.yml"⟩)
          BlockItems.nil)]).2.1 =
      renderJson ⟨false, false, true, false⟩ ["p"]
        (preorderTop [Block.mk [] (BlockItems.cons
          (BlockItem.task ⟨"t1", "debug", ["a"], "x.yml"⟩) BlockItems.nil)]) ∧
     ∀ anc t x,
      (mkTaskCliJSON ⟨false, false, true, false⟩
          (sortedUnion ["p"] (attrTags anc t)) t).tags.Sorted strLe ∧
      (mkTaskCliJSON ⟨false, false, true, false⟩
          (sortedUnion ["p"] (attrTags anc t)) t).tags.Nodup ∧
      (x ∈ (mkTaskCliJSON ⟨false, false, true, false⟩
          (sortedUnion ["p"] (attrTags anc t)) t).tags ↔
        (x ∈ ["p"] ∨ x ∈ anc ∨ x ∈ t.tags))) :=
  ⟨rfl, C3_effective_tags ⟨false, false, true, false⟩ ["p"] []
    [Block.mk [] (BlockItems.cons (BlockItem.task ⟨"t1", "debug", ["a"], "x.yml"⟩)
      BlockItems.nil)] rfl⟩

/-- C4: a control-only task (action `meta`) inserted anywhere in any entry
list is invisible: the traversal's text, JSON summaries and aggregated tag
set are identical to those of the same list without it (lines 176-177 skip
it before the `all_tags` update and before any emission). -/
theorem C4_meta_tasks_invisible (opts : Opts) (mytags anc acc : List String)
    (pre post : BlockItems) (t : Task) (h : t.action = "meta") :
    processItems opts mytags anc acc
        (BlockItems.append pre (BlockItems.cons (BlockItem.task t) post)) =
      processItems opts mytags anc acc (BlockItems.append pre post) := by
  have hpre : preorderItems anc
      (BlockItems.append pre (BlockItems.cons (BlockItem.task t) post))
      = preorderItems anc (BlockItems.append pre post) := by
    rw [preorderItems_append, preorderItems_append]
    simp [preorderItems, preorderItem, h]
  rw [processItems_eq, processItems_eq, hpre]

/-- C4 witness: a tagged `meta` task appended after a normal task changes
nothing in the traversal output. -/
theorem C4_meta_tasks_invisible_witness :
    (⟨"", "meta", ["m"], ""⟩ : Task).action = "meta" ∧
    processItems ⟨true, false, true, true⟩ ["p"] [] []
        (BlockItems.append
          (BlockItems.cons (BlockItem.task ⟨"a1", "debug", ["x"], ""⟩) BlockItems.nil)
          (BlockItems.cons (BlockItem.task ⟨"", "meta", ["m"], ""⟩) BlockItems.nil)) =
      processItems ⟨true, false, true, true⟩ ["p"] [] []
        (BlockItems.append
          (BlockItems.cons (BlockItem.task ⟨"a1", "debug", ["x"], ""⟩) BlockItems.nil)
          BlockItems.nil) :=
  ⟨rfl, C4_meta_tasks_invisible ⟨true, false, true, true⟩ ["p"] [] []
    (BlockItems.cons (BlockItem.task ⟨"a1", "debug", ["x"], ""⟩) BlockItems.nil)
    BlockItems.nil ⟨"", "meta", ["m"], ""⟩ rfl⟩

/-- C5: for every nested block tree, the emitted task sequence (text lines
and JSON task-list entries alike) is exactly the depth-first pre-order
traversal over non-control leaf tasks, preserving declaration order of
siblings at every level: the traversal result is the pre-order list rendered
by `renderText`/`jsonPart`, with the aggregated tags collected in the same
order. -/
theorem C5_preorder_traversal (opts : Opts) (mytags acc : List String)
    (blocks : List Block) :
    processTop opts mytags acc blocks =
      (renderText opts mytags (preorderTop blocks),
       jsonPart opts mytags (preorderTop blocks),
       acc ++ collectTags (preorderTop blocks)) :=
  processTop_eq opts mytags acc blocks

/-- C6: a block with no leaf task anywhere below it (so in particular one
left without tasks by tag filtering) contributes nothing at any nesting
depth: as a nested entry it emits no text, no JSON entries and no tags, and
both as a nested entry and as a top-level block the parent's traversal
output is exactly as if the block were absent. -/
theorem C6_filtered_empty_block_dropped (opts : Opts) (mytags anc acc btags : List String)
    (bitems : BlockItems) (h : itemsTaskCount bitems = 0) :
    processItem opts mytags anc acc (BlockItem.block btags bitems) = ("", [], acc) ∧
    (∀ pre post,
      processItems opts mytags anc acc
          (BlockItems.append pre (BlockItems.cons (BlockItem.block btags bitems) post)) =
        processItems opts mytags anc acc (BlockItems.append pre post)) ∧
    (∀ blocks1 blocks2,
      processTop opts mytags acc (blocks1 ++ Block.mk btags bitems :: blocks2) =
        processTop opts mytags acc (blocks1 ++ blocks2)) := by
  have hnil : ∀ anc2 : List String, preorderItems anc2 bitems = [] :=
    fun anc2 => preorderItems_nil_of_taskCount anc2 bitems h
  refine ⟨?_, ?_, ?_⟩
  · rw [processItem_eq]
    simp [preorderItem, hnil, renderText, jsonPart, renderJson, collectTags]
  · intro pre post
    have hp : preorderItems anc
        (BlockItems.append pre (BlockItems.cons (BlockItem.block btags bitems) post))
        = preorderItems anc (BlockItems.append pre post) := by
      rw [preorderItems_append, preorderItems_append]
      simp [preorderItems, preorderItem, hnil]
    rw [processItems_eq, processItems_eq, hp]
  · intro blocks1 blocks2
    have hp : preorderTop (blocks1 ++ Block.mk btags bitems :: blocks2)
        = preorderTop (blocks1 ++ blocks2) := by
      rw [preorderTop_append, preorderTop_append]
      simp [preorderTop, hnil]
    rw [processTop_eq, processTop_eq, hp]

/-- C6 witness: a top-level block whose only entry is an empty nested block
(nesting depth 2, zero tasks) leaves the play's listing unchanged. -/
theorem C6_filtered_empty_block_dropped_witness :
    itemsTaskCount (BlockItems.cons (BlockItem.block ["inner"] BlockItems.nil)
      BlockItems.nil) = 0 ∧
    processTop ⟨true, false, false, false⟩ ["p"] []
        ([Block.mk [] (BlockItems.cons (BlockItem.task ⟨"a1", "debug", [], ""⟩)
            BlockItems.nil)] ++
          Block.mk ["b"] (BlockItems.cons (BlockItem.block ["inner"] BlockItems.nil)
            BlockItems.nil) :: []) =
      processTop ⟨true, false, false, false⟩ ["p"] []
        ([Block.mk [] (BlockItems.cons (BlockItem.task ⟨"a1", "debug", [], ""⟩)
            BlockItems.nil)] ++ []) :=
  ⟨rfl, (C6_filtered_empty_block_dropped ⟨true, false, false, false⟩ ["p"] [] [] ["b"]
    (BlockItems.cons (BlockItem.block ["inner"] BlockItems.nil) BlockItems.nil)
    rfl).2.2 _ _⟩

/-- C7: when any playbook argument names a path that is missing or neither a
regular file nor a FIFO, the run fails with a user-facing error raised by
the pre-checks of lines 90-96, before any traversal or listing output is
produced (the error branch carries no output lines). -/
theorem C7_bad_playbook_path_fails_fast (fs : String → FileKind) (opts : Opts)
    (args : List String) (plays : List PlayData) (p : String) (hmem : p ∈ args)
    (hbad : fs p = FileKind.absent ∨ fs p = FileKind.otherKind) :
    ∃ msg, runList fs opts args plays = Except.error msg := by
  obtain ⟨msg, hm⟩ := checkPlaybooks_error fs p hbad args hmem
  exact ⟨msg, by simp [runList, hm]⟩

/-- C7 witness: a single missing playbook path makes the listing fail with
an error and no output. -/
theorem C7_bad_playbook_path_fails_fast_witness :
    "site.yml" ∈ ["site.yml"] ∧
    ∃ msg, runList (fun _ => FileKind.absent) ⟨true, false, false, false⟩
      ["site.yml"] [] = Except.error msg :=
  ⟨by simp, C7_bad_playbook_path_fails_fast (fun _ => FileKind.absent)
    ⟨true, false, false, false⟩ ["site.yml"] [] "site.yml" (by simp) (Or.inl rfl)⟩

/-- C8 counterexample: with `--list-tasks` but without `--list-tasks-json`,
the traversal emits the task's text line yet appends no task summary
(line 194 guards the append with `listtasksjson`), so the typed summary
model is not built for every listing invocation. -/
theorem C8_counterexample :
    (processTop ⟨true, false, false, false⟩ [] []
        [Block.mk [] (BlockItems.cons (BlockItem.task ⟨"x", "debug", [], ""⟩)
          BlockItems.nil)]).1 = "      x\tTAGS: []\n" ∧
    (processTop ⟨true, false, false, false⟩ [] []
        [Block.mk [] (BlockItems.cons (BlockItem.task ⟨"x", "debug", [], ""⟩)
          BlockItems.nil)]).2.1 = [] :=
  ⟨rfl, rfl⟩

/-- C8 amended: the per-play typed task-summary list is built only when JSON
output is requested; for every listing invocation without `listtasksjson`
the traversal's summary list is empty (text and JSON share the one traversal
code path, but the typed model is only populated for JSON output). -/
theorem C8_amended (opts : Opts) (mytags acc : List String) (blocks : List Block)
    (h : opts.listtasksjson = false) :
    (processTop opts mytags acc blocks).2.1 = [] := by
  rw [processTop_eq]
  simp [jsonPart, h]

/-- C8 witness: the amended statement on a concrete text-only listing. -/
theorem C8_amended_witness :
    (⟨true, false, false, false⟩ : Opts).listtasksjson = false ∧
    (processTop ⟨true, false, false, false⟩ ["p"] []
        [Block.mk [] (BlockItems.cons (BlockItem.task ⟨"y", "debug", [], ""⟩)
          BlockItems.nil)]).2.1 = [] :=
  ⟨rfl, C8_amended ⟨true, false, false, false⟩ ["p"] []
    [Block.mk [] (BlockItems.cons (BlockItem.task ⟨"y", "debug", [], ""⟩)
      BlockItems.nil)] rfl⟩

/-- C9 counterexample: a value with no known projection (no `json_cli_repr`,
not natively encodable) is not dropped from the output: the base encoder's
`TypeError` is caught and the handler returns `None`, so the key survives
with value `null` instead of being removed. -/
theorem C9_counterexample :
    serialize (PyVal.dict (PyFields.fcons "k" PyVal.objUnknown PyFields.fnil)) =
      Except.ok (PyJson.obj (PyJsonFields.fcons "k" PyJson.null PyJsonFields.fnil)) ∧
    PyJsonFields.fcons "k" PyJson.null PyJsonFields.fnil ≠ PyJsonFields.fnil :=
  ⟨rfl, by decide⟩

/-- C9 amended: serialization never raises on values with no known
projection — the `TypeError` from the base encoder's `default` is caught
(lines 248-251) — and such values are emitted as `null` rather than being
dropped, so a complete best-effort document is still produced. -/
theorem C9_amended :
    (∀ v, ∃ j, serialize v = Except.ok j) ∧
    serialize PyVal.objUnknown = Except.ok PyJson.null ∧
    serialize (PyVal.dict (PyFields.fcons "k" PyVal.objUnknown PyFields.fnil)) =
      Except.ok (PyJson.obj (PyJsonFields.fcons "k" PyJson.null PyJsonFields.fnil)) :=
  ⟨serialize_total, rfl, rfl⟩

/-- C10: `remove_nulls` is the identity on `None`, and on any dict it keeps
exactly the top-level entries whose value is not `None`, values unchanged;
in particular a `None` nested inside a retained dict value survives
untouched. -/
theorem C10_remove_nulls_shallow :
    remove_nulls Option.none = Option.none ∧
    (∀ d k v, fieldMem k v (removeNullFields d) ↔ (fieldMem k v d ∧ v.isNone = false)) ∧
    removeNullFields (PyFields.fcons "a"
        (PyVal.dict (PyFields.fcons "b" PyVal.pynone PyFields.fnil)) PyFields.fnil) =
      PyFields.fcons "a" (PyVal.dict (PyFields.fcons "b" PyVal.pynone PyFields.fnil))
        PyFields.fnil :=
  ⟨rfl, fun d k v => fieldMem_removeNullFields k v d, rfl⟩

end PlaybookListing
